import Mathlib

/-!
Shallow embedding of the terrain-aware coverage library
(`include/polygon_boolean.hpp`, `include/radar_coverage.hpp`).

Coordinates are modelled as exact rationals.  Calls into transcendental
math routines (`std::sqrt`, `std::cos`, `std::sin`, the double constant
`2 * M_PI`) and into the external Clipper2 library (`ClipperD::Execute`,
`InflatePaths`, `SimplifyPaths`) are abstracted as explicit function
parameters: the repository contains neither their source nor any
contract beyond the call sites, so every theorem below is quantified
over them (or instantiates them at a concrete value when the code path
under scrutiny never calls them).
-/

namespace TerrainCoverage

/-- Model of `polygon_ops::Point2D`: a pair of plane coordinates. -/
structure Point2D where
  x : ℚ
  y : ℚ
deriving DecidableEq

/-- Model of `Point2D::operator+`. -/
def Point2D.add (p q : Point2D) : Point2D := ⟨p.x + q.x, p.y + q.y⟩

/-- Model of `Point2D::operator-`. -/
def Point2D.sub (p q : Point2D) : Point2D := ⟨p.x - q.x, p.y - q.y⟩

/-- Model of `Point2D::operator*` (scaling by a scalar). -/
def Point2D.scale (p : Point2D) (s : ℚ) : Point2D := ⟨p.x * s, p.y * s⟩

/-- Model of `Point2D::dot`. -/
def Point2D.dot (p q : Point2D) : ℚ := p.x * q.x + p.y * q.y

/-- Model of `Point2D::cross`: `x * o.y - y * o.x`. -/
def Point2D.cross (p q : Point2D) : ℚ := p.x * q.y - p.y * q.x

/-- Square of `Point2D::length`; the `std::sqrt` applied to it in the
source is abstracted as a function parameter wherever it is needed. -/
def Point2D.lengthSq (p : Point2D) : ℚ := p.x * p.x + p.y * p.y

/-- Model of `polygon_ops::Polygon`: an ordered vertex list. -/
abbrev Polygon := List Point2D

/-- Model of `polygon_ops::PolygonWithHoles`. -/
structure PolygonWithHoles where
  outer : Polygon
  holes : List Polygon
deriving DecidableEq

/-- Model of `polygon_ops::MultiPolygon`. -/
abbrev MultiPolygon := List PolygonWithHoles

/-- Summand list of the shoelace formula in `PolygonUtils::signedArea`:
the source pairs vertex `i` with vertex `(i+1) % n` and accumulates
`poly[i].x * poly[j].y - poly[j].x * poly[i].y`, which is
`Point2D.cross poly[i] poly[j]`; zipping the list with its one-step
rotation produces exactly those index pairs. -/
def shoelaceTerms (poly : Polygon) : List ℚ :=
  (poly.zip (poly.rotate 1)).map (fun pq => Point2D.cross pq.1 pq.2)

/-- Model of `PolygonUtils::signedArea`: zero for fewer than 3 vertices,
otherwise half the cyclic shoelace sum. -/
def signedArea (poly : Polygon) : ℚ :=
  if poly.length < 3 then 0 else (shoelaceTerms poly).sum / 2

/-- Model of `PolygonUtils::area`: absolute value of the signed area. -/
def area (poly : Polygon) : ℚ := |signedArea poly|

/-- Model of `PolygonUtils::perimeter`: zero for fewer than 2 vertices,
otherwise the sum of the edge lengths around the closed loop; the
`std::sqrt` inside `Point2D::length` is the abstract `sqrtFn`. -/
def perimeter (sqrtFn : ℚ → ℚ) (poly : Polygon) : ℚ :=
  if poly.length < 2 then 0
  else ((poly.zip (poly.rotate 1)).map
    (fun pq => sqrtFn (Point2D.lengthSq (Point2D.sub pq.2 pq.1)))).sum

/-- Model of `PolygonUtils::isCounterClockwise`: `signedArea > 0`. -/
def isCounterClockwise (poly : Polygon) : Bool := decide (signedArea poly > 0)

/-- Model of `PolygonUtils::ensureOrientation`: reverse the vertex order
iff the current orientation differs from the requested one. -/
def ensureOrientation (poly : Polygon) (ccw : Bool) : Polygon :=
  if isCounterClockwise poly = ccw then poly else poly.reverse

/-- Model of `PolygonUtils::pointInPolygon` (even-odd ray casting).
The C++ loop runs `i` from `0` to `n-1` with `j` trailing behind
(starting at `n-1`); here `j = (i + n - 1) % n`.  Division by zero in ℚ
yields `0`, but exactly as in the source the quotient only influences
the result when `poly[i].y` and `poly[j].y` lie on opposite sides of
`pt.y`, which forces a nonzero denominator. -/
def pointInPolygon (pt : Point2D) (poly : Polygon) : Bool :=
  let n := poly.length
  (List.range n).foldl (fun inside i =>
    let j := (i + n - 1) % n
    let pI := poly.getD i ⟨0, 0⟩
    let pJ := poly.getD j ⟨0, 0⟩
    if ((decide (pI.y > pt.y)) != (decide (pJ.y > pt.y)))
        && decide (pt.x < (pJ.x - pI.x) * (pt.y - pI.y) / (pJ.y - pI.y) + pI.x)
    then !inside else inside) false

/-- Model of `PolygonBoolean::classifyResult`: split the flat contour
list into positive-area outer boundaries and negative-area hole
candidates, then attach to each outer boundary every hole candidate
whose first vertex lies inside it, reversing the hole before storing. -/
def classifyResult (paths : List Polygon) : MultiPolygon :=
  if paths = [] then []
  else
    let allPolygons := paths
    let areas := paths.map signedArea
    let n := paths.length
    let outerIndices := (List.range n).filter (fun i => decide (areas.getD i 0 > 0))
    let holeIndices := (List.range n).filter (fun i => decide (areas.getD i 0 < 0))
    outerIndices.map (fun outerIdx =>
      let outer := allPolygons.getD outerIdx []
      let holes := holeIndices.filterMap (fun holeIdx =>
        let holePoly := allPolygons.getD holeIdx []
        if holePoly = [] then none
        else if pointInPolygon (holePoly.headD ⟨0, 0⟩) outer
        then some holePoly.reverse else none)
      ⟨outer, holes⟩)

/-- Model of `PolygonBoolean::unionAll`.  The `polygons.size() >= 2`
branch hands the subject paths to the external Clipper2 engine
(`ClipperD::Execute` with `ClipType::Union`, `FillRule::NonZero`),
which is not part of this repository; it is abstracted as the
`clipperUnion` parameter producing the flat solution contour list. -/
def unionAll (clipperUnion : List Polygon → List Polygon)
    (polygons : List Polygon) : MultiPolygon :=
  if polygons = [] then []
  else if polygons.length = 1 then
    [⟨ensureOrientation (polygons.headD []) true, []⟩]
  else classifyResult (clipperUnion polygons)

/-- Model of `PolygonProcessor::simplify`.  The call to Clipper2
`SimplifyPaths` is abstracted as the `clipperSimplify` parameter. -/
def simplify (clipperSimplify : List Polygon → ℚ → List Polygon)
    (poly : Polygon) (epsilon : ℚ) : Polygon :=
  if poly.length < 3 ∨ epsilon ≤ 0 then poly
  else
    let simplified := clipperSimplify [poly] epsilon
    if simplified = [] ∨ (simplified.headD []).length < 3 then poly
    else simplified.headD []

/-- One pass of the Chaikin corner-cutting loop in
`PolygonProcessor::smooth`: every cyclically consecutive vertex pair
`(p0, p1)` is replaced by `p0 * 0.75 + p1 * 0.25` and
`p0 * 0.25 + p1 * 0.75`. -/
def chaikinStep (poly : Polygon) : Polygon :=
  ((poly.zip (poly.rotate 1)).map (fun pq =>
    [Point2D.add (pq.1.scale (3/4)) (pq.2.scale (1/4)),
     Point2D.add (pq.1.scale (1/4)) (pq.2.scale (3/4))])).flatten

/-- Iterated Chaikin passes (the outer `for (iter ...)` loop). -/
def smoothLoop : ℕ → Polygon → Polygon
  | 0, p => p
  | k + 1, p => smoothLoop k (chaikinStep p)

/-- Model of `PolygonProcessor::smooth`: no-op for fewer than 3
vertices or a non-positive iteration count, otherwise `iterations`
Chaikin passes. -/
def smooth (poly : Polygon) (iterations : ℤ) : Polygon :=
  if poly.length < 3 ∨ iterations ≤ 0 then poly
  else smoothLoop iterations.toNat poly

/-- Model of `PolygonProcessor::simplifyAll`. -/
def simplifyAll (clipperSimplify : List Polygon → ℚ → List Polygon)
    (mp : MultiPolygon) (epsilon : ℚ) : MultiPolygon :=
  mp.map (fun pwh =>
    ⟨simplify clipperSimplify pwh.outer epsilon,
     pwh.holes.map (fun hole => simplify clipperSimplify hole epsilon)⟩)

/-- Model of `PolygonProcessor::smoothAll`. -/
def smoothAll (mp : MultiPolygon) (iterations : ℤ) : MultiPolygon :=
  mp.map (fun pwh =>
    ⟨smooth pwh.outer iterations,
     pwh.holes.map (fun hole => smooth hole iterations)⟩)

/-- Model of `PolygonStats`. -/
structure PolygonStats where
  regionCount : ℕ
  totalHoleCount : ℕ
  totalArea : ℚ
  totalPerimeter : ℚ
deriving DecidableEq

/-- Model of `PolygonStats::compute`: `regionCount` is set up front to
the number of regions, then each region contributes its hole count, its
outer area minus the summed hole areas, and the outer plus hole
perimeters. -/
def PolygonStats.compute (sqrtFn : ℚ → ℚ) (mp : MultiPolygon) : PolygonStats :=
  mp.foldl (fun stats pwh =>
    let outerArea := area pwh.outer
    let holeArea := (pwh.holes.map area).sum
    ⟨stats.regionCount,
     stats.totalHoleCount + pwh.holes.length,
     stats.totalArea + (outerArea - holeArea),
     stats.totalPerimeter + (pwh.holes.map (perimeter sqrtFn)).sum
       + perimeter sqrtFn pwh.outer⟩)
    ⟨mp.length, 0, 0, 0⟩

/-- Earth radius constant from the `TerrainModel` constructor
(`earth_radius_ = 6371000.0`). -/
def earthRadiusQ : ℚ := 6371000

/-- Interior sample points of `TerrainModel::isLineOfSightBlocked`:
the loop runs `i = 1 .. numSamples-1`, placing sample `i` at
`radarPos + step * i` with `step = delta * (1 / numSamples)` and
fractional progress `i / numSamples`.  Each element pairs the sample
position with its progress. -/
def losSamples (radarPos targetPos : Point2D) (numSamples : ℤ) :
    List (Point2D × ℚ) :=
  let delta := targetPos.sub radarPos
  let step := delta.scale (1 / (numSamples : ℚ))
  ((List.range numSamples.toNat).drop 1).map (fun (i : ℕ) =>
    (radarPos.add (step.scale (i : ℚ)), (i : ℚ) / (numSamples : ℚ)))

/-- Model of `TerrainModel::isLineOfSightBlocked`.  The terrain field
`getElevation` is abstracted as `elev` (the claims quantify over the
terrain) and `std::sqrt` as `sqrtFn`.  Returns false immediately when
the computed distance is below `1e-6`; otherwise blocked iff some
interior sample's terrain elevation exceeds the interpolated
line-of-sight height minus half the Earth-curvature drop
`(progress * totalDist)^2 / (2 * earthRadius)`. -/
def isLineOfSightBlocked (elev : ℚ → ℚ → ℚ) (sqrtFn : ℚ → ℚ)
    (radarPos : Point2D) (radarHeight : ℚ) (targetPos : Point2D)
    (targetHeight : ℚ) (numSamples : ℤ) : Bool :=
  let delta := targetPos.sub radarPos
  let totalDist := sqrtFn delta.lengthSq
  if totalDist < 1 / 1000000 then false
  else (losSamples radarPos targetPos numSamples).any (fun s =>
    let losHeight := radarHeight * (1 - s.2) + targetHeight * s.2
    let arcDist := s.2 * totalDist
    let curvatureDrop := arcDist * arcDist / (2 * earthRadiusQ)
    let effectiveLos := losHeight - curvatureDrop * (1/2)
    decide (elev s.1.x s.1.y > effectiveLos))

/-- Fuel-indexed unfolding of the `while (hi - lo > maxRange * 0.01)`
bisection loop in `TerrainModel::computeMaxVisibleRange`: while the
guard holds, probe the midpoint and keep the half whose lower end is
still confirmed visible.  The loop theorems below show that 7 units of
fuel always reach a state where the guard is false (the interval halves
exactly each pass and `2^7 > 100`), so the fuelled recursion computes
the while loop's result. -/
def cmvrGo (blocked : ℚ → Bool) (maxRange : ℚ) :
    ℕ → ℚ × ℚ → ℚ × ℚ
  | 0, s => s
  | f + 1, s =>
    if s.2 - s.1 > maxRange * (1/100) then
      let mid := (s.1 + s.2) / 2
      cmvrGo blocked maxRange f (if blocked mid then (s.1, mid) else (mid, s.2))
    else s

/-- Blocking predicate probed by `computeMaxVisibleRange` at a trial
range `mid`: line of sight from the radar to
`radarPos + dir * mid` with `dir = (cos azimuth, sin azimuth)` and the
default sample count 40. -/
def losBlockedAtRange (elev : ℚ → ℚ → ℚ) (sqrtFn cosFn sinFn : ℚ → ℚ)
    (radarPos : Point2D) (radarHeight azimuth targetHeight : ℚ)
    (mid : ℚ) : Bool :=
  let dir : Point2D := ⟨cosFn azimuth, sinFn azimuth⟩
  isLineOfSightBlocked elev sqrtFn radarPos radarHeight
    (radarPos.add (dir.scale mid)) targetHeight 40

/-- Model of `TerrainModel::computeMaxVisibleRange`: bisection on
`[0, maxRange]`, returning the lower bound of the final interval. -/
def computeMaxVisibleRange (elev : ℚ → ℚ → ℚ) (sqrtFn cosFn sinFn : ℚ → ℚ)
    (radarPos : Point2D) (radarHeight azimuth maxRange targetHeight : ℚ) : ℚ :=
  (cmvrGo (losBlockedAtRange elev sqrtFn cosFn sinFn radarPos radarHeight
      azimuth targetHeight) maxRange 7 (0, maxRange)).1

/-- Model of `radar_coverage::RadarParams`. -/
structure RadarParams where
  id : ℤ
  name : String
  position : Point2D
  range : ℚ
  height : ℚ
  minElevation : ℚ
  maxElevation : ℚ
  azimuthStart : ℚ
  azimuthEnd : ℚ
deriving DecidableEq

/-- Model of `RadarParams::isOmnidirectional`:
`|azimuthEnd - azimuthStart - 2π| < 0.01`, with the double constant
`2 * M_PI` abstracted as `twoPi`. -/
def isOmnidirectional (twoPi : ℚ) (r : RadarParams) : Bool :=
  decide (|r.azimuthEnd - r.azimuthStart - twoPi| < 1/100)

/-- Body of the ray loop of `radar_coverage::generateCoveragePolygon`:
for ray `i`, the azimuth is `azimuthStart + i * (span / numRays)`, the
range comes from `computeMaxVisibleRange` (default target height 0),
and the emitted vertex is `position + range * (cos azimuth, sin
azimuth)`. -/
def coverageVertex (elev : ℚ → ℚ → ℚ) (sqrtFn cosFn sinFn : ℚ → ℚ)
    (radar : RadarParams) (numRays : ℤ) (i : ℕ) : Point2D :=
  let azimuthSpan := radar.azimuthEnd - radar.azimuthStart
  let azimuthStep := azimuthSpan / (numRays : ℚ)
  let azimuth := radar.azimuthStart + (i : ℚ) * azimuthStep
  let range := computeMaxVisibleRange elev sqrtFn cosFn sinFn
    radar.position radar.height azimuth radar.range 0
  ⟨radar.position.x + range * cosFn azimuth,
   radar.position.y + range * sinFn azimuth⟩

/-- Model of `radar_coverage::generateCoveragePolygon`: push one vertex
per ray for `i = 0 .. numRays-1`, then append the radar's own position
iff the sensor is not a full circle. -/
def generateCoveragePolygon (elev : ℚ → ℚ → ℚ) (sqrtFn cosFn sinFn : ℚ → ℚ)
    (twoPi : ℚ) (radar : RadarParams) (numRays : ℤ) : Polygon :=
  let base := (List.range numRays.toNat).foldl (fun (acc : Polygon) (i : ℕ) =>
    acc ++ [coverageVertex elev sqrtFn cosFn sinFn radar numRays i]) []
  if !(isOmnidirectional twoPi radar) then base ++ [radar.position] else base

/-- External functions consumed by the pipeline: the math routines of
the C++ standard library and the two Clipper2 entry points reached from
`CoverageMergeManager::updateIfDirty`.  `elev` stands for
`TerrainModel::getElevation` of the manager's terrain member, which the
claims quantify over. -/
structure ExtFns where
  sqrtFn : ℚ → ℚ
  cosFn : ℚ → ℚ
  sinFn : ℚ → ℚ
  twoPi : ℚ
  elev : ℚ → ℚ → ℚ
  clipperUnion : List Polygon → List Polygon
  clipperSimplify : List Polygon → ℚ → List Polygon

/-- Mutable state of `radar_coverage::CoverageMergeManager`. -/
structure ManagerState where
  radars : List RadarParams
  individualCoverages : List Polygon
  mergedCoverage : MultiPolygon
  numRays : ℤ
  simplifyEpsilon : ℚ
  smoothIterations : ℤ
  dirty : Bool

/-- Model of `CoverageMergeManager::addRadar`. -/
def addRadar (r : RadarParams) (s : ManagerState) : ManagerState :=
  ⟨s.radars ++ [r], s.individualCoverages, s.mergedCoverage,
   s.numRays, s.simplifyEpsilon, s.smoothIterations, true⟩

/-- Replacement loop of `CoverageMergeManager::updateRadar`: replace
the first radar whose id matches (the C++ loop breaks after the first
hit) and report whether a match was found. -/
def updateRadarGo (rid : ℤ) (params : RadarParams) :
    List RadarParams → List RadarParams × Bool
  | [] => ([], false)
  | r :: rest =>
    if r.id = rid then (params :: rest, true)
    else
      let p := updateRadarGo rid params rest
      (r :: p.1, p.2)

/-- Model of `CoverageMergeManager::updateRadar`: the dirty flag is set
only when a radar with the given id was found. -/
def updateRadar (rid : ℤ) (params : RadarParams) (s : ManagerState) :
    ManagerState :=
  let p := updateRadarGo rid params s.radars
  ⟨p.1, s.individualCoverages, s.mergedCoverage,
   s.numRays, s.simplifyEpsilon, s.smoothIterations,
   if p.2 then true else s.dirty⟩

/-- Model of `CoverageMergeManager::removeRadar` (`std::remove_if` on a
matching id, then unconditional dirty mark). -/
def removeRadar (rid : ℤ) (s : ManagerState) : ManagerState :=
  ⟨s.radars.filter (fun r => decide (r.id ≠ rid)), s.individualCoverages,
   s.mergedCoverage, s.numRays, s.simplifyEpsilon, s.smoothIterations, true⟩

/-- Model of `CoverageMergeManager::clearRadars`. -/
def clearRadars (s : ManagerState) : ManagerState :=
  ⟨[], s.individualCoverages, s.mergedCoverage,
   s.numRays, s.simplifyEpsilon, s.smoothIterations, true⟩

/-- Model of `CoverageMergeManager::setNumRays`. -/
def setNumRays (n : ℤ) (s : ManagerState) : ManagerState :=
  ⟨s.radars, s.individualCoverages, s.mergedCoverage,
   n, s.simplifyEpsilon, s.smoothIterations, true⟩

/-- Model of `CoverageMergeManager::setSimplifyEpsilon`. -/
def setSimplifyEpsilon (eps : ℚ) (s : ManagerState) : ManagerState :=
  ⟨s.radars, s.individualCoverages, s.mergedCoverage,
   s.numRays, eps, s.smoothIterations, true⟩

/-- Model of `CoverageMergeManager::setSmoothIterations`. -/
def setSmoothIterations (k : ℤ) (s : ManagerState) : ManagerState :=
  ⟨s.radars, s.individualCoverages, s.mergedCoverage,
   s.numRays, s.simplifyEpsilon, k, true⟩

/-- Model of `CoverageMergeManager::invalidate`. -/
def invalidate (s : ManagerState) : ManagerState :=
  ⟨s.radars, s.individualCoverages, s.mergedCoverage,
   s.numRays, s.simplifyEpsilon, s.smoothIterations, true⟩

/-- Model of `CoverageMergeManager::updateIfDirty`: when dirty, rebuild
the individual coverages, union them, simplify iff `epsilon > 0`,
smooth iff `iterations > 0`, cache both results and clear the flag. -/
def updateIfDirty (ext : ExtFns) (s : ManagerState) : ManagerState :=
  if s.dirty = false then s
  else
    let ind := s.radars.map (fun r =>
      generateCoveragePolygon ext.elev ext.sqrtFn ext.cosFn ext.sinFn
        ext.twoPi r s.numRays)
    let merged0 := unionAll ext.clipperUnion ind
    let merged1 := if s.simplifyEpsilon > 0
      then simplifyAll ext.clipperSimplify merged0 s.simplifyEpsilon
      else merged0
    let merged2 := if s.smoothIterations > 0
      then smoothAll merged1 s.smoothIterations
      else merged1
    ⟨s.radars, ind, merged2, s.numRays, s.simplifyEpsilon,
     s.smoothIterations, false⟩

/-- Model of `CoverageMergeManager::getIndividualCoverages`: refresh if
dirty, then return the cached list together with the post-call state. -/
def getIndividualCoverages (ext : ExtFns) (s : ManagerState) :
    List Polygon × ManagerState :=
  let s1 := updateIfDirty ext s
  (s1.individualCoverages, s1)

/-- Model of `CoverageMergeManager::getMergedCoverage`. -/
def getMergedCoverage (ext : ExtFns) (s : ManagerState) :
    MultiPolygon × ManagerState :=
  let s1 := updateIfDirty ext s
  (s1.mergedCoverage, s1)

/-- Model of `CoverageMergeManager::getStats`: refresh if dirty, then
compute the statistics from the cached merged coverage. -/
def getStats (ext : ExtFns) (s : ManagerState) :
    PolygonStats × ManagerState :=
  let s1 := updateIfDirty ext s
  (PolygonStats.compute ext.sqrtFn s1.mergedCoverage, s1)

/-- Proof-internal restatement of the open shoelace chain: the sum of
`cross` over consecutive (non-cyclic) vertex pairs.  Used to reason
about the effect of reversing a polygon on its signed area. -/
def chainCross : Polygon → ℚ
  | [] => 0
  | [_] => 0
  | a :: b :: t => Point2D.cross a b + chainCross (b :: t)

/-- Proof-internal closing term of the cyclic shoelace sum: the `cross`
of the last vertex with the first (zero for the empty list). -/
def closing (l : Polygon) : ℚ :=
  match l.getLast?, l.head? with
  | some b, some h => Point2D.cross b h
  | _, _ => 0

/-! ## Helper lemmas -/

/-- The cross product of two points is antisymmetric. -/
theorem cross_antisymm (p q : Point2D) :
    Point2D.cross p q = -Point2D.cross q p := by
  unfold Point2D.cross; ring

/-- Zipping a nonempty list against its own tail extended by `a` pairs
consecutive elements and finally the last element with `a`. -/
theorem zip_tail_append (t : List Point2D) :
    ∀ c a : Point2D, (c :: t).zip (t ++ [a])
      = ((c :: t).zip t) ++ [(t.getLastD c, a)] := by
  induction t with
  | nil => intro c a; rfl
  | cons b t2 ih =>
    intro c a
    simp only [List.zip_cons_cons, List.cons_append, List.getLastD_cons]
    rw [ih b a]

/-- The sum of `cross` over a list zipped with its own tail is the open
shoelace chain. -/
theorem zip_tail_sum (l : Polygon) :
    ((l.zip l.tail).map (fun pq => Point2D.cross pq.1 pq.2)).sum
      = chainCross l := by
  induction l with
  | nil => rfl
  | cons a t ih =>
    cases t with
    | nil => rfl
    | cons b t2 =>
      simp only [List.tail_cons, List.zip_cons_cons, List.map_cons,
        List.sum_cons] at ih ⊢
      rw [chainCross]
      rw [ih]

/-- The cyclic shoelace sum splits into the open chain plus the closing
term. -/
theorem shoelaceTerms_sum_eq (l : Polygon) :
    (shoelaceTerms l).sum = chainCross l + closing l := by
  cases l with
  | nil => simp [shoelaceTerms, chainCross, closing]
  | cons c t =>
    unfold shoelaceTerms
    have hrot : (c :: t).rotate 1 = t ++ [c] := by
      rw [List.rotate_cons_succ, List.rotate_zero]
    rw [hrot, zip_tail_append t c c, List.map_append, List.sum_append]
    have hclose : closing (c :: t) = Point2D.cross (t.getLastD c) c := by
      unfold closing
      rw [List.getLast?_cons, List.head?_cons, List.getLastD_eq_getLast?]
    have hchain :
        ((c :: t).zip t).map (fun pq => Point2D.cross pq.1 pq.2)
          = (((c :: t).zip (c :: t).tail)).map (fun pq => Point2D.cross pq.1 pq.2) := rfl
    rw [hclose, hchain, zip_tail_sum]
    simp

/-- Appending one vertex extends the open chain by one cross term. -/
theorem chainCross_append (l : Polygon) (a : Point2D) :
    chainCross (l ++ [a])
      = chainCross l + ((l.getLast?).elim 0 (fun b => Point2D.cross b a)) := by
  induction l with
  | nil => simp [chainCross]
  | cons c l2 ih =>
    cases l2 with
    | nil => simp [chainCross, List.getLast?_cons, List.getLastD]
    | cons d l3 =>
      have h1 : chainCross ((c :: d :: l3) ++ [a])
          = Point2D.cross c d + chainCross ((d :: l3) ++ [a]) := rfl
      have h2 : chainCross (c :: d :: l3)
          = Point2D.cross c d + chainCross (d :: l3) := rfl
      rw [h1, ih, h2]
      have h3 : (c :: d :: l3).getLast? = (d :: l3).getLast? := by
        rw [List.getLast?_cons_cons]
      rw [h3, add_assoc]

/-- Reversing a polygon negates the open shoelace chain. -/
theorem chainCross_reverse (l : Polygon) :
    chainCross l.reverse = -chainCross l := by
  induction l with
  | nil => simp [chainCross]
  | cons c t ih =>
    rw [List.reverse_cons, chainCross_append, ih, List.getLast?_reverse]
    cases t with
    | nil => simp [chainCross]
    | cons b t2 =>
      rw [List.head?_cons]
      have h2 : chainCross (c :: b :: t2)
          = Point2D.cross c b + chainCross (b :: t2) := rfl
      rw [h2, Option.elim_some, cross_antisymm b c]
      ring

/-- Reversing a polygon negates the closing term. -/
theorem closing_reverse (l : Polygon) : closing l.reverse = -closing l := by
  unfold closing
  rw [List.getLast?_reverse, List.head?_reverse]
  cases hh : l.head? with
  | none =>
    cases hg : l.getLast? with
    | none => simp
    | some b => simp
  | some h =>
    cases hg : l.getLast? with
    | none => simp
    | some b => exact cross_antisymm h b

/-- Reversing a polygon negates its signed area (the shoelace formula
is orientation-antisymmetric). -/
theorem signedArea_reverse (l : Polygon) :
    signedArea l.reverse = -signedArea l := by
  unfold signedArea
  rw [List.length_reverse]
  by_cases h : l.length < 3
  · simp [h]
  · rw [if_neg h, if_neg h, shoelaceTerms_sum_eq, shoelaceTerms_sum_eq,
      chainCross_reverse, closing_reverse]
    ring

/-- Length of one Chaikin pass: every cyclic vertex pair contributes
exactly two points, so the vertex count doubles. -/
theorem chaikinStep_length (poly : Polygon) :
    (chaikinStep poly).length = 2 * poly.length := by
  unfold chaikinStep
  rw [List.length_flatten]
  have hz : (poly.zip (poly.rotate 1)).length = poly.length := by
    simp [List.length_zip, List.length_rotate]
  rw [List.map_map]
  have key : ∀ l : List (Point2D × Point2D),
      (l.map (List.length ∘ (fun pq =>
        ([Point2D.add (pq.1.scale (3/4)) (pq.2.scale (1/4)),
          Point2D.add (pq.1.scale (1/4)) (pq.2.scale (3/4))] : List Point2D)))).sum
        = 2 * l.length := by
    intro l
    induction l with
    | nil => simp
    | cons a t ih =>
      simp only [List.map_cons, List.sum_cons, List.length_cons,
        List.length_nil, ih, Function.comp_apply]
      omega
  rw [key, hz]

/-- Length of the iterated Chaikin loop. -/
theorem smoothLoop_length (k : ℕ) (poly : Polygon) :
    (smoothLoop k poly).length = poly.length * 2 ^ k := by
  induction k generalizing poly with
  | zero => simp [smoothLoop]
  | succ n ih =>
    rw [smoothLoop, ih, chaikinStep_length]
    ring

end TerrainCoverage

namespace TerrainCoverage

/-! ## Claim theorems -/

/-- Claim C9: for every polygon with fewer than 3 vertices `signedArea`
and `area` return exactly 0, and for every polygon with fewer than 2
vertices `perimeter` returns exactly 0 (for any square-root routine);
each degenerate bound applies to its own operations independently, and
all three are total functions, so none fails on degenerate input. -/
theorem degenerate_polygons_give_zero (sqrtFn : ℚ → ℚ) (poly : Polygon) :
    (poly.length < 3 → signedArea poly = 0 ∧ area poly = 0) ∧
    (poly.length < 2 → perimeter sqrtFn poly = 0) := by
  refine ⟨fun h3 => ⟨?_, ?_⟩, fun h2 => ?_⟩
  · simp [signedArea, h3]
  · simp [area, signedArea, h3]
  · simp [perimeter, h2]

/-- Witness for C9: the two-vertex polygon (covered only by the
signedArea/area bound) and the one-vertex polygon (also covered by the
perimeter bound). -/
theorem degenerate_polygons_give_zero_witness :
    (([(⟨0, 0⟩ : Point2D), ⟨1, 0⟩] : Polygon).length < 3 ∧
      (signedArea [(⟨0, 0⟩ : Point2D), ⟨1, 0⟩] = 0 ∧
        area [(⟨0, 0⟩ : Point2D), ⟨1, 0⟩] = 0)) ∧
    (([(⟨5, 7⟩ : Point2D)] : Polygon).length < 2 ∧
      perimeter (fun q => q) [(⟨5, 7⟩ : Point2D)] = 0) :=
  ⟨⟨by decide,
    (degenerate_polygons_give_zero (fun q => q)
      [(⟨0, 0⟩ : Point2D), ⟨1, 0⟩]).1 (by decide)⟩,
   ⟨by decide,
    (degenerate_polygons_give_zero (fun q => q)
      [(⟨5, 7⟩ : Point2D)]).2 (by decide)⟩⟩

/-- Claim C8: for a polygon with at least 3 vertices and a positive
iteration count, `smooth` runs the Chaikin corner-cutting loop, each
pass replacing every cyclic edge `(p0, p1)` by the two points
`0.75*p0 + 0.25*p1` and `0.25*p0 + 0.75*p1`, so the vertex count is
exactly `n * 2^k`; for `k ≤ 0` or fewer than 3 vertices the input is
returned unchanged. -/
theorem smooth_doubling_law (poly : Polygon) (k : ℤ) :
    (3 ≤ poly.length → 1 ≤ k →
      (smooth poly k).length = poly.length * 2 ^ k.toNat ∧
      smooth poly 1 = chaikinStep poly) ∧
    (poly.length < 3 ∨ k ≤ 0 → smooth poly k = poly) := by
  constructor
  · intro h3 hk
    have hcond : ¬(poly.length < 3 ∨ k ≤ 0) := by omega
    constructor
    · rw [smooth, if_neg hcond, smoothLoop_length]
    · have hcond1 : ¬(poly.length < 3 ∨ (1 : ℤ) ≤ 0) := by omega
      rw [smooth, if_neg hcond1]
      show smoothLoop 1 poly = chaikinStep poly
      rw [smoothLoop, smoothLoop]
  · intro h
    rw [smooth, if_pos h]

/-- Witness for C8: one pass on a unit square yields 8 vertices, and a
2-vertex segment is untouched. -/
theorem smooth_doubling_law_witness :
    (3 ≤ ([(⟨0,0⟩ : Point2D), ⟨1,0⟩, ⟨1,1⟩, ⟨0,1⟩] : Polygon).length ∧
      (1 : ℤ) ≤ 1 ∧
      (smooth [(⟨0,0⟩ : Point2D), ⟨1,0⟩, ⟨1,1⟩, ⟨0,1⟩] 1).length = 4 * 2 ^ (1 : ℤ).toNat) ∧
    (([(⟨0,0⟩ : Point2D), ⟨1,0⟩] : Polygon).length < 3 ∧
      smooth [(⟨0,0⟩ : Point2D), ⟨1,0⟩] 5 = [(⟨0,0⟩ : Point2D), ⟨1,0⟩]) :=
  ⟨⟨by decide, by decide,
    ((smooth_doubling_law [(⟨0,0⟩ : Point2D), ⟨1,0⟩, ⟨1,1⟩, ⟨0,1⟩] 1).1
      (by decide) (by decide)).1⟩,
   ⟨by decide,
    (smooth_doubling_law [(⟨0,0⟩ : Point2D), ⟨1,0⟩] 5).2 (Or.inl (by decide))⟩⟩

/-- When the bisection guard already fails, the loop is a no-op for any
fuel. -/
theorem cmvrGo_guard_false (blocked : ℚ → Bool) (maxRange : ℚ) (f : ℕ)
    (s : ℚ × ℚ) (h : ¬ s.2 - s.1 > maxRange * (1/100)) :
    cmvrGo blocked maxRange f s = s := by
  cases f with
  | zero => rfl
  | succ f =>
    show (if s.2 - s.1 > maxRange * (1/100) then _ else s) = s
    rw [if_neg h]

/-- One unfolding of the bisection loop at positive fuel. -/
theorem cmvrGo_succ (blocked : ℚ → Bool) (maxRange : ℚ) (f : ℕ) (s : ℚ × ℚ) :
    cmvrGo blocked maxRange (f + 1) s
      = if s.2 - s.1 > maxRange * (1/100) then
          cmvrGo blocked maxRange f
            (if blocked ((s.1 + s.2) / 2) then (s.1, (s.1 + s.2) / 2)
             else ((s.1 + s.2) / 2, s.2))
        else s := rfl

/-- The interval halves each pass, so once the fuel covers the needed
number of halvings the loop ends with the guard false. -/
theorem cmvrGo_width (blocked : ℚ → Bool) (maxRange : ℚ) :
    ∀ (f : ℕ) (s : ℚ × ℚ), s.2 - s.1 ≤ maxRange * (1/100) * 2 ^ f →
      ¬ (cmvrGo blocked maxRange f s).2 - (cmvrGo blocked maxRange f s).1
          > maxRange * (1/100) := by
  intro f
  induction f with
  | zero =>
    intro s hs
    show ¬ s.2 - s.1 > maxRange * (1/100)
    simp only [pow_zero, mul_one] at hs
    linarith
  | succ f ih =>
    intro s hs
    by_cases hg : s.2 - s.1 > maxRange * (1/100)
    · rw [cmvrGo_succ, if_pos hg]
      by_cases hb : blocked ((s.1 + s.2) / 2) = true
      · rw [if_pos hb]
        apply ih
        show (s.1 + s.2) / 2 - s.1 ≤ maxRange * (1/100) * 2 ^ f
        have h2 : (2:ℚ) ^ (f + 1) = 2 ^ f * 2 := by ring
        rw [h2] at hs
        linarith
      · rw [if_neg hb]
        apply ih
        show s.2 - (s.1 + s.2) / 2 ≤ maxRange * (1/100) * 2 ^ f
        have h2 : (2:ℚ) ^ (f + 1) = 2 ^ f * 2 := by ring
        rw [h2] at hs
        linarith
    · rw [cmvrGo_succ, if_neg hg]
      exact hg

/-- Once the guard is false at the state reached with fuel `f`, extra
fuel does not change the result: the while loop has terminated. -/
theorem cmvrGo_stable (blocked : ℚ → Bool) (maxRange : ℚ) :
    ∀ (f g : ℕ) (s : ℚ × ℚ),
      (¬ (cmvrGo blocked maxRange f s).2 - (cmvrGo blocked maxRange f s).1
          > maxRange * (1/100)) →
      cmvrGo blocked maxRange (f + g) s = cmvrGo blocked maxRange f s := by
  intro f
  induction f with
  | zero =>
    intro g s h
    show cmvrGo blocked maxRange (0 + g) s = s
    rw [Nat.zero_add]
    exact cmvrGo_guard_false blocked maxRange g s h
  | succ f ih =>
    intro g s h
    by_cases hg : s.2 - s.1 > maxRange * (1/100)
    · have harith : f + 1 + g = (f + g) + 1 := by omega
      rw [harith, cmvrGo_succ, if_pos hg]
      rw [cmvrGo_succ, if_pos hg] at h ⊢
      exact ih g _ h
    · rw [cmvrGo_guard_false blocked maxRange (f + 1 + g) s hg,
        cmvrGo_guard_false blocked maxRange (f + 1) s hg]

/-- The bisection invariant: the lower bound stays in `[0, maxRange]`
and is either still the initial 0 or a midpoint that the blocking probe
confirmed visible. -/
theorem cmvrGo_invariant (blocked : ℚ → Bool) (maxRange : ℚ) :
    ∀ (f : ℕ) (s : ℚ × ℚ), 0 ≤ s.1 → s.1 ≤ s.2 → s.2 ≤ maxRange →
      (s.1 = 0 ∨ blocked s.1 = false) →
      0 ≤ (cmvrGo blocked maxRange f s).1 ∧
      (cmvrGo blocked maxRange f s).1 ≤ (cmvrGo blocked maxRange f s).2 ∧
      (cmvrGo blocked maxRange f s).2 ≤ maxRange ∧
      ((cmvrGo blocked maxRange f s).1 = 0 ∨
        blocked (cmvrGo blocked maxRange f s).1 = false) := by
  intro f
  induction f with
  | zero =>
    intro s h0 h1 h2 h3
    exact ⟨h0, h1, h2, h3⟩
  | succ f ih =>
    intro s h0 h1 h2 h3
    by_cases hg : s.2 - s.1 > maxRange * (1/100)
    · rw [cmvrGo_succ, if_pos hg]
      by_cases hb : blocked ((s.1 + s.2) / 2) = true
      · rw [if_pos hb]
        exact ih (s.1, (s.1 + s.2) / 2) h0 (by show s.1 ≤ (s.1 + s.2) / 2; linarith)
          (by show (s.1 + s.2) / 2 ≤ maxRange; linarith) h3
      · rw [if_neg hb]
        exact ih ((s.1 + s.2) / 2, s.2)
          (by show (0:ℚ) ≤ (s.1 + s.2) / 2; linarith)
          (by show (s.1 + s.2) / 2 ≤ s.2; linarith) h2
          (Or.inr (by simpa using hb))
    · rw [cmvrGo_succ, if_neg hg]
      exact ⟨h0, h1, h2, h3⟩

/-- Claim C5: for maxRange ≥ 0, the binary search of
`computeMaxVisibleRange` terminates within the bounded fuel of 7
halving passes (the final interval satisfies
`hi - lo ≤ 0.01 * maxRange`, and further passes change nothing), and
the returned value `lo` satisfies `0 ≤ lo ≤ maxRange` and is either 0
or a midpoint at which `isLineOfSightBlocked` returned false. -/
theorem computeMaxVisibleRange_spec (elev : ℚ → ℚ → ℚ)
    (sqrtFn cosFn sinFn : ℚ → ℚ) (rp : Point2D)
    (rh azimuth maxRange th : ℚ) (hmr : 0 ≤ maxRange) :
    (∀ f, 7 ≤ f →
      cmvrGo (losBlockedAtRange elev sqrtFn cosFn sinFn rp rh azimuth th)
          maxRange f (0, maxRange)
        = cmvrGo (losBlockedAtRange elev sqrtFn cosFn sinFn rp rh azimuth th)
          maxRange 7 (0, maxRange)) ∧
    ¬ (cmvrGo (losBlockedAtRange elev sqrtFn cosFn sinFn rp rh azimuth th)
          maxRange 7 (0, maxRange)).2
        - (cmvrGo (losBlockedAtRange elev sqrtFn cosFn sinFn rp rh azimuth th)
          maxRange 7 (0, maxRange)).1 > maxRange * (1/100) ∧
    0 ≤ computeMaxVisibleRange elev sqrtFn cosFn sinFn rp rh azimuth maxRange th ∧
    computeMaxVisibleRange elev sqrtFn cosFn sinFn rp rh azimuth maxRange th
      ≤ maxRange ∧
    (computeMaxVisibleRange elev sqrtFn cosFn sinFn rp rh azimuth maxRange th = 0 ∨
      losBlockedAtRange elev sqrtFn cosFn sinFn rp rh azimuth th
        (computeMaxVisibleRange elev sqrtFn cosFn sinFn rp rh azimuth maxRange th)
        = false) := by
  have hwidth : ((0 : ℚ), maxRange).2 - ((0 : ℚ), maxRange).1
      ≤ maxRange * (1/100) * 2 ^ 7 := by
    show maxRange - 0 ≤ maxRange * (1/100) * 2 ^ 7
    have h128 : (2:ℚ) ^ 7 = 128 := by norm_num
    rw [h128]
    linarith
  have hterm := cmvrGo_width
    (losBlockedAtRange elev sqrtFn cosFn sinFn rp rh azimuth th) maxRange 7
    (0, maxRange) hwidth
  have hinv := cmvrGo_invariant
    (losBlockedAtRange elev sqrtFn cosFn sinFn rp rh azimuth th) maxRange 7
    (0, maxRange) le_rfl hmr le_rfl (Or.inl rfl)
  refine ⟨?_, hterm, hinv.1, le_trans hinv.2.1 hinv.2.2.1, hinv.2.2.2⟩
  intro f hf
  have harith : f = 7 + (f - 7) := by omega
  rw [harith]
  exact cmvrGo_stable _ maxRange 7 (f - 7) (0, maxRange) hterm

/-- Witness for C5 on flat terrain with unit direction and range 100:
the returned range is within `[0, 100]`. -/
theorem computeMaxVisibleRange_spec_witness :
    (0 : ℚ) ≤ 100 ∧
    0 ≤ computeMaxVisibleRange (fun _ _ => 0) (fun _ => 0) (fun _ => 1)
        (fun _ => 0) ⟨0, 0⟩ 10 0 100 0 ∧
    computeMaxVisibleRange (fun _ _ => 0) (fun _ => 0) (fun _ => 1)
        (fun _ => 0) ⟨0, 0⟩ 10 0 100 0 ≤ 100 :=
  ⟨by norm_num,
   (computeMaxVisibleRange_spec (fun _ _ => 0) (fun _ => 0) (fun _ => 1)
      (fun _ => 0) ⟨0, 0⟩ 10 0 100 0 (by norm_num)).2.2.1,
   (computeMaxVisibleRange_spec (fun _ _ => 0) (fun _ => 0) (fun _ => 1)
      (fun _ => 0) ⟨0, 0⟩ 10 0 100 0 (by norm_num)).2.2.2.1⟩

/-- Folding push-back of one generated element per input is a map. -/
theorem foldl_append_singleton {α β : Type} (f : α → β) :
    ∀ (l : List α) (acc : List β),
      l.foldl (fun acc i => acc ++ [f i]) acc = acc ++ l.map f := by
  intro l
  induction l with
  | nil => intro acc; simp
  | cons a t ih =>
    intro acc
    simp only [List.foldl_cons, List.map_cons]
    rw [ih]
    simp

/-- Claim C6: `generateCoveragePolygon` emits exactly one vertex per
ray, the `i`-th (for `i = 0 .. numRays-1`) at azimuth
`azimuthStart + i * (span / numRays)` and position
`position + range * (cos azimuth, sin azimuth)` with the range from
`computeMaxVisibleRange`; the radar's own position is appended as a
final vertex iff the azimuth span is not within the 0.01 rad tolerance
of the full circle, so the polygon has `numRays` vertices for a
full-circle sensor and `numRays + 1` for a sector sensor. -/
theorem generateCoveragePolygon_spec (elev : ℚ → ℚ → ℚ)
    (sqrtFn cosFn sinFn : ℚ → ℚ) (twoPi : ℚ) (radar : RadarParams)
    (numRays : ℤ) (hn : 1 ≤ numRays) :
    generateCoveragePolygon elev sqrtFn cosFn sinFn twoPi radar numRays
      = (List.range numRays.toNat).map
          (coverageVertex elev sqrtFn cosFn sinFn radar numRays)
        ++ (if isOmnidirectional twoPi radar then [] else [radar.position]) ∧
    (∀ i : ℕ, coverageVertex elev sqrtFn cosFn sinFn radar numRays i
      = ⟨radar.position.x
          + computeMaxVisibleRange elev sqrtFn cosFn sinFn radar.position
              radar.height
              (radar.azimuthStart + (i : ℚ)
                * ((radar.azimuthEnd - radar.azimuthStart) / (numRays : ℚ)))
              radar.range 0
            * cosFn (radar.azimuthStart + (i : ℚ)
                * ((radar.azimuthEnd - radar.azimuthStart) / (numRays : ℚ))),
         radar.position.y
          + computeMaxVisibleRange elev sqrtFn cosFn sinFn radar.position
              radar.height
              (radar.azimuthStart + (i : ℚ)
                * ((radar.azimuthEnd - radar.azimuthStart) / (numRays : ℚ)))
              radar.range 0
            * sinFn (radar.azimuthStart + (i : ℚ)
                * ((radar.azimuthEnd - radar.azimuthStart) / (numRays : ℚ)))⟩) ∧
    (generateCoveragePolygon elev sqrtFn cosFn sinFn twoPi radar numRays).length
      = numRays.toNat + (if isOmnidirectional twoPi radar then 0 else 1) := by
  have hbase : generateCoveragePolygon elev sqrtFn cosFn sinFn twoPi radar numRays
      = (List.range numRays.toNat).map
          (coverageVertex elev sqrtFn cosFn sinFn radar numRays)
        ++ (if isOmnidirectional twoPi radar then [] else [radar.position]) := by
    unfold generateCoveragePolygon
    rw [foldl_append_singleton]
    cases homni : isOmnidirectional twoPi radar <;> simp [homni]
  refine ⟨hbase, fun i => rfl, ?_⟩
  rw [hbase, List.length_append, List.length_map, List.length_range]
  cases homni : isOmnidirectional twoPi radar <;> simp

/-- Witness for C6: a sector sensor (quarter circle) with 4 rays gets
4 + 1 vertices; the structural equation holds at those inputs. -/
theorem generateCoveragePolygon_spec_witness :
    (1 : ℤ) ≤ 4 ∧
    (generateCoveragePolygon (fun _ _ => 0) (fun _ => 0) (fun _ => 1)
        (fun _ => 0) (628/100) ⟨1, "R", ⟨0, 0⟩, 100, 10, 0, 1, 0, 157/100⟩
        4).length
      = (4 : ℤ).toNat
        + (if isOmnidirectional (628/100)
            ⟨1, "R", ⟨0, 0⟩, 100, 10, 0, 1, 0, 157/100⟩ then 0 else 1) :=
  ⟨by decide,
   (generateCoveragePolygon_spec (fun _ _ => 0) (fun _ => 0) (fun _ => 1)
      (fun _ => 0) (628/100) ⟨1, "R", ⟨0, 0⟩, 100, 10, 0, 1, 0, 157/100⟩ 4
      (by decide)).2.2⟩

/-- When some stored radar matches the id, the `updateRadar` scan
reports a hit (and hence marks the state dirty). -/
theorem updateRadarGo_found (rid : ℤ) (params : RadarParams) :
    ∀ l : List RadarParams, (∃ q ∈ l, q.id = rid) →
      (updateRadarGo rid params l).2 = true := by
  intro l
  induction l with
  | nil =>
    rintro ⟨q, hq, _⟩
    exact absurd hq (List.not_mem_nil q)
  | cons a t ih =>
    rintro ⟨q, hq, hid⟩
    by_cases ha : a.id = rid
    · unfold updateRadarGo
      rw [if_pos ha]
    · unfold updateRadarGo
      rw [if_neg ha]
      show (updateRadarGo rid params t).2 = true
      apply ih
      rcases List.mem_cons.mp hq with h | h
      · rw [h] at hid
        exact absurd hid ha
      · exact ⟨q, h, hid⟩

/-- A refreshed manager state is never dirty. -/
theorem updateIfDirty_dirty_false (ext : ExtFns) (s : ManagerState) :
    (updateIfDirty ext s).dirty = false := by
  unfold updateIfDirty
  by_cases h : s.dirty = false
  · rw [if_pos h]
    exact h
  · rw [if_neg h]

/-- Refreshing a clean manager state is a no-op. -/
theorem updateIfDirty_clean (ext : ExtFns) (s : ManagerState)
    (h : s.dirty = false) : updateIfDirty ext s = s := by
  unfold updateIfDirty
  rw [if_pos h]

/-- Claim C4: every mutator of `CoverageMergeManager` (addRadar,
updateRadar with a matching id, removeRadar, clearRadars, setNumRays,
setSimplifyEpsilon, setSmoothIterations, invalidate) only marks the
state dirty and leaves both caches untouched; the first accessor call
after a dirty mark runs the pipeline — generate one polygon per radar,
union them all, simplify iff epsilon > 0, smooth iff iterations > 0 —
caches the result and clears the flag; a clean state is refreshed to
itself, every accessor returns the refreshed cache, and a second
accessor call without an intervening mutation returns the identical
cached result and state. -/
theorem manager_cache_discipline (ext : ExtFns) (s : ManagerState)
    (r params : RadarParams) (rid n k : ℤ) (eps : ℚ) :
    ((addRadar r s).individualCoverages = s.individualCoverages ∧
      (addRadar r s).mergedCoverage = s.mergedCoverage ∧
      (addRadar r s).dirty = true) ∧
    ((∃ q ∈ s.radars, q.id = rid) →
      (updateRadar rid params s).individualCoverages = s.individualCoverages ∧
      (updateRadar rid params s).mergedCoverage = s.mergedCoverage ∧
      (updateRadar rid params s).dirty = true) ∧
    ((removeRadar rid s).individualCoverages = s.individualCoverages ∧
      (removeRadar rid s).mergedCoverage = s.mergedCoverage ∧
      (removeRadar rid s).dirty = true) ∧
    ((clearRadars s).individualCoverages = s.individualCoverages ∧
      (clearRadars s).mergedCoverage = s.mergedCoverage ∧
      (clearRadars s).dirty = true) ∧
    ((setNumRays n s).individualCoverages = s.individualCoverages ∧
      (setNumRays n s).mergedCoverage = s.mergedCoverage ∧
      (setNumRays n s).dirty = true) ∧
    ((setSimplifyEpsilon eps s).individualCoverages = s.individualCoverages ∧
      (setSimplifyEpsilon eps s).mergedCoverage = s.mergedCoverage ∧
      (setSimplifyEpsilon eps s).dirty = true) ∧
    ((setSmoothIterations k s).individualCoverages = s.individualCoverages ∧
      (setSmoothIterations k s).mergedCoverage = s.mergedCoverage ∧
      (setSmoothIterations k s).dirty = true) ∧
    ((invalidate s).individualCoverages = s.individualCoverages ∧
      (invalidate s).mergedCoverage = s.mergedCoverage ∧
      (invalidate s).dirty = true) ∧
    (s.dirty = true →
      (updateIfDirty ext s).individualCoverages
        = s.radars.map (fun q => generateCoveragePolygon ext.elev ext.sqrtFn
            ext.cosFn ext.sinFn ext.twoPi q s.numRays) ∧
      (updateIfDirty ext s).mergedCoverage
        = (if s.smoothIterations > 0 then
            smoothAll
              (if s.simplifyEpsilon > 0 then
                simplifyAll ext.clipperSimplify
                  (unionAll ext.clipperUnion (s.radars.map (fun q =>
                    generateCoveragePolygon ext.elev ext.sqrtFn ext.cosFn
                      ext.sinFn ext.twoPi q s.numRays)))
                  s.simplifyEpsilon
               else unionAll ext.clipperUnion (s.radars.map (fun q =>
                 generateCoveragePolygon ext.elev ext.sqrtFn ext.cosFn
                   ext.sinFn ext.twoPi q s.numRays)))
              s.smoothIterations
           else
            (if s.simplifyEpsilon > 0 then
              simplifyAll ext.clipperSimplify
                (unionAll ext.clipperUnion (s.radars.map (fun q =>
                  generateCoveragePolygon ext.elev ext.sqrtFn ext.cosFn
                    ext.sinFn ext.twoPi q s.numRays)))
                s.simplifyEpsilon
             else unionAll ext.clipperUnion (s.radars.map (fun q =>
               generateCoveragePolygon ext.elev ext.sqrtFn ext.cosFn
                 ext.sinFn ext.twoPi q s.numRays)))) ∧
      (updateIfDirty ext s).dirty = false ∧
      (updateIfDirty ext s).radars = s.radars) ∧
    (s.dirty = false → updateIfDirty ext s = s) ∧
    (getIndividualCoverages ext s
        = ((updateIfDirty ext s).individualCoverages, updateIfDirty ext s) ∧
      getMergedCoverage ext s
        = ((updateIfDirty ext s).mergedCoverage, updateIfDirty ext s) ∧
      getStats ext s
        = (PolygonStats.compute ext.sqrtFn (updateIfDirty ext s).mergedCoverage,
           updateIfDirty ext s)) ∧
    (getMergedCoverage ext (getMergedCoverage ext s).2
        = getMergedCoverage ext s ∧
      getIndividualCoverages ext (getIndividualCoverages ext s).2
        = getIndividualCoverages ext s ∧
      getStats ext (getStats ext s).2 = getStats ext s) := by
  have hclean : ∀ t : ManagerState, t.dirty = false → updateIfDirty ext t = t :=
    fun t ht => updateIfDirty_clean ext t ht
  have hidem : updateIfDirty ext (updateIfDirty ext s) = updateIfDirty ext s :=
    hclean _ (updateIfDirty_dirty_false ext s)
  refine ⟨⟨rfl, rfl, rfl⟩, ?_, ⟨rfl, rfl, rfl⟩, ⟨rfl, rfl, rfl⟩,
    ⟨rfl, rfl, rfl⟩, ⟨rfl, rfl, rfl⟩, ⟨rfl, rfl, rfl⟩, ⟨rfl, rfl, rfl⟩,
    ?_, hclean s, ⟨rfl, rfl, rfl⟩, ?_⟩
  · intro hex
    refine ⟨rfl, rfl, ?_⟩
    show (if (updateRadarGo rid params s.radars).2 = true then true
        else s.dirty) = true
    rw [updateRadarGo_found rid params s.radars hex]
    simp
  · intro hd
    have hcond : ¬ s.dirty = false := by
      rw [hd]
      exact Bool.true_eq_false ▸ (by simp)
    refine ⟨?_, ?_, ?_, ?_⟩ <;>
      · unfold updateIfDirty
        rw [if_neg hcond]
  · refine ⟨?_, ?_, ?_⟩
    · simp only [getMergedCoverage, hidem]
    · simp only [getIndividualCoverages, hidem]
    · simp only [getStats, hidem]

/-- Witness for C4 at a concrete one-radar dirty manager state: the
matching-id hypothesis of the updateRadar conjunct holds and the
conjunct's conclusion follows. -/
theorem manager_cache_discipline_witness :
    (∃ q ∈ (⟨[⟨1, "R", ⟨0, 0⟩, 100, 10, 0, 1, 0, 628/100⟩],
        [], [], 72, 5, 1, true⟩ : ManagerState).radars, q.id = 1) ∧
    ((updateRadar 1 ⟨1, "R2", ⟨2, 2⟩, 200, 20, 0, 1, 0, 628/100⟩
        (⟨[⟨1, "R", ⟨0, 0⟩, 100, 10, 0, 1, 0, 628/100⟩],
          [], [], 72, 5, 1, true⟩ : ManagerState)).individualCoverages
      = (⟨[⟨1, "R", ⟨0, 0⟩, 100, 10, 0, 1, 0, 628/100⟩],
          [], [], 72, 5, 1, true⟩ : ManagerState).individualCoverages ∧
     (updateRadar 1 ⟨1, "R2", ⟨2, 2⟩, 200, 20, 0, 1, 0, 628/100⟩
        (⟨[⟨1, "R", ⟨0, 0⟩, 100, 10, 0, 1, 0, 628/100⟩],
          [], [], 72, 5, 1, true⟩ : ManagerState)).mergedCoverage
      = (⟨[⟨1, "R", ⟨0, 0⟩, 100, 10, 0, 1, 0, 628/100⟩],
          [], [], 72, 5, 1, true⟩ : ManagerState).mergedCoverage ∧
     (updateRadar 1 ⟨1, "R2", ⟨2, 2⟩, 200, 20, 0, 1, 0, 628/100⟩
        (⟨[⟨1, "R", ⟨0, 0⟩, 100, 10, 0, 1, 0, 628/100⟩],
          [], [], 72, 5, 1, true⟩ : ManagerState)).dirty = true) :=
  ⟨⟨⟨1, "R", ⟨0, 0⟩, 100, 10, 0, 1, 0, 628/100⟩,
     List.mem_singleton.mpr rfl, rfl⟩,
   (manager_cache_discipline
      ⟨fun _ => 0, fun _ => 1, fun _ => 0, 628/100, fun _ _ => 0,
       fun _ => [], fun _ _ => []⟩
      ⟨[⟨1, "R", ⟨0, 0⟩, 100, 10, 0, 1, 0, 628/100⟩],
        [], [], 72, 5, 1, true⟩
      ⟨1, "R", ⟨0, 0⟩, 100, 10, 0, 1, 0, 628/100⟩
      ⟨1, "R2", ⟨2, 2⟩, 200, 20, 0, 1, 0, 628/100⟩ 1 72 1 5).2.1
     ⟨⟨1, "R", ⟨0, 0⟩, 100, 10, 0, 1, 0, 628/100⟩,
      List.mem_singleton.mpr rfl, rfl⟩⟩

/-- Index lookup into the pre-computed signed-area list of
`classifyResult` agrees with the signed area of the indexed contour. -/
theorem areas_getD_eq (paths : List Polygon) (i : ℕ) (hi : i < paths.length) :
    (paths.map signedArea).getD i 0 = signedArea (paths.getD i []) := by
  rw [List.getD_eq_getElem _ _ (by simpa using hi),
    List.getD_eq_getElem _ _ hi, List.getElem_map]

/-- Claim C3: in every `MultiPolygon` produced by `classifyResult`
(hence by `unionAll`, `intersection`, `difference`, `xorOp` and
`offset`), every outer boundary has positive signed area and every
stored hole also has positive signed area, because each negative-area
contour assigned as a hole is reversed before being stored. -/
theorem classifyResult_orientations (paths : List Polygon)
    (pwh : PolygonWithHoles) (hmem : pwh ∈ classifyResult paths) :
    0 < signedArea pwh.outer ∧ ∀ hole ∈ pwh.holes, 0 < signedArea hole := by
  by_cases hp : paths = []
  · rw [classifyResult, if_pos hp] at hmem
    exact absurd hmem (List.not_mem_nil pwh)
  · rw [classifyResult, if_neg hp] at hmem
    obtain ⟨oi, hoi, heq⟩ := List.mem_map.mp hmem
    obtain ⟨hoiR, hoiP⟩ := List.mem_filter.mp hoi
    have hoilt : oi < paths.length := List.mem_range.mp hoiR
    have hpos : 0 < signedArea (paths.getD oi []) := by
      have hd := of_decide_eq_true hoiP
      rwa [areas_getD_eq paths oi hoilt] at hd
    refine ⟨?_, ?_⟩
    · rw [← heq]
      exact hpos
    · intro hole hhole
      rw [← heq] at hhole
      obtain ⟨hi, hhiMem, hf⟩ := List.mem_filterMap.mp hhole
      obtain ⟨hhiR, hhiP⟩ := List.mem_filter.mp hhiMem
      have hhilt : hi < paths.length := List.mem_range.mp hhiR
      have hneg : signedArea (paths.getD hi []) < 0 := by
        have hd := of_decide_eq_true hhiP
        rwa [areas_getD_eq paths hi hhilt] at hd
      by_cases h1 : paths.getD hi [] = []
      · rw [if_pos h1] at hf
        exact absurd hf (by simp)
      · rw [if_neg h1] at hf
        by_cases h2 : pointInPolygon ((paths.getD hi []).headD ⟨0, 0⟩)
            (paths.getD oi []) = true
        · rw [if_pos h2] at hf
          have he : hole = (paths.getD hi []).reverse := (Option.some.inj hf).symm
          rw [he, signedArea_reverse]
          linarith
        · rw [if_neg h2] at hf
          exact absurd hf (by simp)

/-- Witness for C3: a CCW square with a CW inner square classifies into
one region whose outer boundary and stored (reversed) hole both have
positive signed area. -/
theorem classifyResult_orientations_witness :
    ((⟨[(⟨0,0⟩ : Point2D), ⟨4,0⟩, ⟨4,4⟩, ⟨0,4⟩],
        [[(⟨3,1⟩ : Point2D), ⟨3,3⟩, ⟨1,3⟩, ⟨1,1⟩]]⟩ : PolygonWithHoles) ∈
      classifyResult [[(⟨0,0⟩ : Point2D), ⟨4,0⟩, ⟨4,4⟩, ⟨0,4⟩],
        [(⟨1,1⟩ : Point2D), ⟨1,3⟩, ⟨3,3⟩, ⟨3,1⟩]]) ∧
    (0 < signedArea (⟨[(⟨0,0⟩ : Point2D), ⟨4,0⟩, ⟨4,4⟩, ⟨0,4⟩],
        [[(⟨3,1⟩ : Point2D), ⟨3,3⟩, ⟨1,3⟩, ⟨1,1⟩]]⟩ : PolygonWithHoles).outer ∧
      ∀ hole ∈ (⟨[(⟨0,0⟩ : Point2D), ⟨4,0⟩, ⟨4,4⟩, ⟨0,4⟩],
        [[(⟨3,1⟩ : Point2D), ⟨3,3⟩, ⟨1,3⟩, ⟨1,1⟩]]⟩ : PolygonWithHoles).holes,
        0 < signedArea hole) :=
  ⟨by with_unfolding_all decide,
   classifyResult_orientations
     [[(⟨0,0⟩ : Point2D), ⟨4,0⟩, ⟨4,4⟩, ⟨0,4⟩],
      [(⟨1,1⟩ : Point2D), ⟨1,3⟩, ⟨3,3⟩, ⟨3,1⟩]]
     ⟨[(⟨0,0⟩ : Point2D), ⟨4,0⟩, ⟨4,4⟩, ⟨0,4⟩],
      [[(⟨3,1⟩ : Point2D), ⟨3,3⟩, ⟨1,3⟩, ⟨1,1⟩]]⟩
     (by with_unfolding_all decide)⟩

/-- Claim C1 (evidence of the divergence): a clockwise (negative-area)
contour whose test vertex lies inside no positive-area outer boundary
is silently discarded by `classifyResult` — the result is the empty
`MultiPolygon` and no inconsistency is reported anywhere (the function
has no error channel at all), contradicting the spec's requirement that
such a hole be flagged rather than dropped. -/
theorem classifyResult_drops_orphan_hole :
    signedArea [(⟨0,0⟩ : Point2D), ⟨0,1⟩, ⟨1,0⟩] < 0 ∧
    classifyResult [[(⟨0,0⟩ : Point2D), ⟨0,1⟩, ⟨1,0⟩]] = [] := by
  with_unfolding_all decide

/-- Claim C2 (counterexample): with distinct observer and target and
the default `sampleCount = 40`, the line-of-sight loop evaluates the
terrain at 39 interior points, not 40 — the loop runs
`i = 1 .. numSamples-1`. -/
theorem losSamples_count_counterexample :
    (⟨1, 0⟩ : Point2D) ≠ (⟨0, 0⟩ : Point2D) ∧
    (losSamples ⟨0, 0⟩ ⟨1, 0⟩ 40).length = 39 ∧
    (losSamples ⟨0, 0⟩ ⟨1, 0⟩ 40).length ≠ 40 := by
  refine ⟨by decide, ?_, ?_⟩ <;>
    simp only [losSamples, List.length_map, List.length_drop, List.length_range] <;>
    decide

/-- Claim C2 (amended): for `sampleCount ≥ 1`, `isLineOfSightBlocked`
evaluates the terrain at exactly `sampleCount - 1` interior points, the
`i`-th at fractional progress `i / sampleCount` strictly between
observer and target; it returns true iff at some sample the terrain
elevation exceeds the interpolated line-of-sight height minus the
curvature correction `(t * totalDistance)^2 / (2 * earthRadius)` scaled
by the fixed coefficient `0.5`; and when the computed distance is below
the `1e-6` epsilon it returns false. -/
theorem isLineOfSightBlocked_spec (elev : ℚ → ℚ → ℚ) (sqrtFn : ℚ → ℚ)
    (rp : Point2D) (rh : ℚ) (tp : Point2D) (th : ℚ) (n : ℤ) (hn : 1 ≤ n) :
    (losSamples rp tp n).length = n.toNat - 1 ∧
    losSamples rp tp n = ((List.range n.toNat).drop 1).map (fun (i : ℕ) =>
      (rp.add ((tp.sub rp).scale ((i : ℚ) / (n : ℚ))), (i : ℚ) / (n : ℚ))) ∧
    (sqrtFn (tp.sub rp).lengthSq < 1 / 1000000 →
      isLineOfSightBlocked elev sqrtFn rp rh tp th n = false) ∧
    (¬ sqrtFn (tp.sub rp).lengthSq < 1 / 1000000 →
      (isLineOfSightBlocked elev sqrtFn rp rh tp th n = true ↔
        ∃ s ∈ losSamples rp tp n,
          elev s.1.x s.1.y >
            rh * (1 - s.2) + th * s.2 -
              (s.2 * sqrtFn (tp.sub rp).lengthSq) *
                (s.2 * sqrtFn (tp.sub rp).lengthSq) / (2 * earthRadiusQ) * (1/2))) := by
  refine ⟨?_, ?_, ?_, ?_⟩
  · unfold losSamples
    rw [List.length_map, List.length_drop, List.length_range]
  · unfold losSamples
    apply List.map_congr_left
    intro i _
    have hs : ((tp.sub rp).scale (1 / (n : ℚ))).scale (i : ℚ)
        = (tp.sub rp).scale ((i : ℚ) / (n : ℚ)) := by
      simp only [Point2D.scale, Point2D.mk.injEq]
      constructor <;> ring
    rw [hs]
  · intro h
    unfold isLineOfSightBlocked
    simp only [h, if_pos]
  · intro h
    unfold isLineOfSightBlocked
    rw [if_neg h]
    simp [List.any_eq_true]

/-- Witness for the amended C2 at concrete inputs: the sample count is
39 for `sampleCount = 40`, and a coincident-observer configuration is
unblocked via the epsilon branch. -/
theorem isLineOfSightBlocked_spec_witness :
    (1 : ℤ) ≤ 40 ∧
    (losSamples ⟨0, 0⟩ ⟨1, 0⟩ 40).length = (40 : ℤ).toNat - 1 ∧
    ((fun _ => (0 : ℚ)) ((⟨0, 0⟩ : Point2D).sub ⟨0, 0⟩).lengthSq < 1 / 1000000 ∧
      isLineOfSightBlocked (fun _ _ => 0) (fun _ => 0) ⟨0, 0⟩ 10 ⟨0, 0⟩ 0 40 = false) :=
  ⟨by decide,
   (isLineOfSightBlocked_spec (fun _ _ => 0) (fun _ => 0) ⟨0, 0⟩ 10 ⟨1, 0⟩ 0 40
      (by decide)).1,
   by with_unfolding_all decide,
   (isLineOfSightBlocked_spec (fun _ _ => 0) (fun _ => 0) ⟨0, 0⟩ 10 ⟨0, 0⟩ 0 40
      (by decide)).2.2.1 (by with_unfolding_all decide)⟩

/-- Claim C7 (counterexample): for the zero-area collinear polygon
`p = [(0,0), (1,0), (2,0)]`, which is not clockwise
(`signedArea p = 0`, not negative), `unionAll [p]` nevertheless returns
the reversed vertex order — refuting "reversed order iff p was
clockwise".  The external-engine argument is irrelevant: the
single-input branch never calls it. -/
theorem unionAll_single_counterexample :
    ¬ signedArea [(⟨0,0⟩ : Point2D), ⟨1,0⟩, ⟨2,0⟩] < 0 ∧
    unionAll (fun _ => []) [[(⟨0,0⟩ : Point2D), ⟨1,0⟩, ⟨2,0⟩]] =
      [⟨[(⟨2,0⟩ : Point2D), ⟨1,0⟩, ⟨0,0⟩], []⟩] ∧
    ([(⟨2,0⟩ : Point2D), ⟨1,0⟩, ⟨0,0⟩] : Polygon) ≠
      [(⟨0,0⟩ : Point2D), ⟨1,0⟩, ⟨2,0⟩] := by
  with_unfolding_all decide

/-- Claim C7 (amended): for every polygon `p`, `unionAll [p]` returns a
MultiPolygon with exactly one region and no holes, whose outer boundary
is `p` unchanged when `signedArea p > 0` and `p` reversed otherwise (in
particular zero-area polygons are reversed even though they are not
clockwise); the vertex set is unchanged either way.  The `[p, p]` case
is delegated to the external Clipper2 engine, whose code is not part of
this repository. -/
theorem unionAll_single_spec (clipperUnion : List Polygon → List Polygon)
    (p : Polygon) :
    unionAll clipperUnion [p] =
      [⟨if 0 < signedArea p then p else p.reverse, []⟩] ∧
    ∀ v : Point2D, (v ∈ (if 0 < signedArea p then p else p.reverse)) ↔ v ∈ p := by
  constructor
  · by_cases h : 0 < signedArea p <;>
      simp [unionAll, ensureOrientation, isCounterClockwise, h]
  · intro v
    by_cases h : 0 < signedArea p <;> simp [h]

/-- Radars whose id never matches are left untouched by the
`updateRadar` scan, and no dirty mark is produced. -/
theorem updateRadarGo_no_match (rid : ℤ) (params : RadarParams) :
    ∀ l : List RadarParams, (∀ r ∈ l, r.id ≠ rid) →
      updateRadarGo rid params l = (l, false) := by
  intro l
  induction l with
  | nil => intro _; rfl
  | cons r rest ih =>
    intro h
    have hr : r.id ≠ rid := h r (List.mem_cons_self r rest)
    have hrest : ∀ q ∈ rest, q.id ≠ rid := fun q hq => h q (List.mem_cons_of_mem r hq)
    unfold updateRadarGo
    rw [if_neg hr, ih hrest]

/-- Claim C10: calling `updateRadar` with an id that matches no stored
radar leaves the entire manager state unchanged — radar list, dirty
flag and both caches are exactly as before, so the cache is not
invalidated. -/
theorem updateRadar_no_match_frame (rid : ℤ) (params : RadarParams)
    (s : ManagerState) (h : ∀ r ∈ s.radars, r.id ≠ rid) :
    updateRadar rid params s = s := by
  unfold updateRadar
  rw [updateRadarGo_no_match rid params s.radars h]
  rfl

/-- Witness for C10 at a concrete one-radar manager state. -/
theorem updateRadar_no_match_frame_witness :
    (∀ r ∈ (⟨[⟨1, "Radar", ⟨0, 0⟩, 50000, 10, -(1/100), 7/10, 0, 628/100⟩],
        [], [], 72, 5, 1, false⟩ : ManagerState).radars, r.id ≠ 5) ∧
    updateRadar 5 ⟨5, "New", ⟨1, 1⟩, 60000, 20, 0, 1, 0, 628/100⟩
        (⟨[⟨1, "Radar", ⟨0, 0⟩, 50000, 10, -(1/100), 7/10, 0, 628/100⟩],
          [], [], 72, 5, 1, false⟩ : ManagerState) =
      (⟨[⟨1, "Radar", ⟨0, 0⟩, 50000, 10, -(1/100), 7/10, 0, 628/100⟩],
        [], [], 72, 5, 1, false⟩ : ManagerState) :=
  ⟨by decide,
   updateRadar_no_match_frame 5 ⟨5, "New", ⟨1, 1⟩, 60000, 20, 0, 1, 0, 628/100⟩
     ⟨[⟨1, "Radar", ⟨0, 0⟩, 50000, 10, -(1/100), 7/10, 0, 628/100⟩],
       [], [], 72, 5, 1, false⟩ (by decide)⟩

end TerrainCoverage
